import Mathlib

/-!
Verification of the doomcode relay, end-to-end crypto wrapper, and desktop
patch tracker against their natural-language specification.

The relay store (DynamoDB tables for connections, sessions and queued
messages) is embedded as explicit lists with key-based put, get, delete and
query operations; the WebSocket handlers become pure state transitions that
also return the list of frames sent.  JavaScript string truthiness (an empty
string is falsy) is modelled explicitly where the source relies on it.
-/

namespace DoomCode

/-- Client role on a relay connection, from the protocol package
(Sender and clientType are both the pair desktop or mobile). -/
inductive ClientType where
  | desktop
  | mobile
deriving DecidableEq, Repr

/-- Wire envelope from packages/protocol/src/envelope.ts (MessageEnvelope).
The relay never decrypts; nonce and encryptedPayload stay opaque strings. -/
structure MessageEnvelope where
  version : Nat
  sessionId : String
  messageId : String
  timestamp : Nat
  sender : ClientType
  nonce : String
  encryptedPayload : String
deriving DecidableEq, Repr

/-- Connection record of the relay store (db.ts, interface Connection). -/
structure Connection where
  connectionId : String
  sessionId : String
  clientType : ClientType
  publicKey : String
  connectedAt : Nat
deriving DecidableEq, Repr

/-- Session record of the relay store (db.ts, interface Session).
Optional slot fields model the optional DynamoDB attributes. -/
structure Session where
  sessionId : String
  desktopConnectionId : Option String := none
  desktopPublicKey : Option String := none
  mobileConnectionId : Option String := none
  mobilePublicKey : Option String := none
  createdAt : Nat
  expiresAt : Nat
deriving DecidableEq, Repr

/-- Queued message record of the relay store (db.ts, interface
QueuedMessage).  The ttl field is in epoch seconds, as in the source. -/
structure QueuedMessage where
  sessionId : String
  messageId : String
  envelope : MessageEnvelope
  queuedAt : Nat
  ttl : Nat
deriving DecidableEq, Repr

/-- Relay store: the three DynamoDB tables as lists of records.  The
connections table is keyed by connectionId, the sessions table by sessionId,
and the messages table by the pair of sessionId and messageId. -/
structure Db where
  connections : List Connection
  sessions : List Session
  messages : List QueuedMessage
deriving DecidableEq, Repr

/-- JavaScript truthiness of a string: the empty string is falsy. -/
def strTruthy (s : String) : Bool :=
  s ≠ ""

/-- JavaScript truthiness of an optional string field: undefined and the
empty string are falsy. -/
def optTruthy : Option String → Bool
  | none => false
  | some s => strTruthy s

/-- PutCommand on the connections table (db.ts saveConnection): replaces any
item with the same connectionId key. -/
def saveConnection (db : Db) (c : Connection) : Db :=
  { db with connections :=
      (db.connections.filter (fun x => x.connectionId ≠ c.connectionId)) ++ [c] }

/-- GetCommand on the connections table (db.ts getConnection). -/
def getConnection (db : Db) (connectionId : String) : Option Connection :=
  db.connections.find? (fun c => c.connectionId = connectionId)

/-- DeleteCommand on the connections table (db.ts deleteConnection). -/
def deleteConnection (db : Db) (connectionId : String) : Db :=
  { db with connections :=
      db.connections.filter (fun c => c.connectionId ≠ connectionId) }

/-- PutCommand of a fresh session (db.ts createSession): createdAt is the
current clock and expiresAt lies 24 hours later. -/
def createSession (db : Db) (sessionId : String) (now : Nat) : Db × Session :=
  let session : Session :=
    { sessionId := sessionId
      createdAt := now
      expiresAt := now + 24 * 60 * 60 * 1000 }
  ({ db with sessions :=
      (db.sessions.filter (fun s => s.sessionId ≠ sessionId)) ++ [session] },
   session)

/-- GetCommand on the sessions table (db.ts getSession).  The source does not
look at expiresAt here: an expired session still stored is returned. -/
def getSession (db : Db) (sessionId : String) : Option Session :=
  db.sessions.find? (fun s => s.sessionId = sessionId)

/-- UpdateCommand setting one client slot of a session (db.ts
updateSessionClient): sets the connectionId and publicKey of the given role. -/
def updateSessionClient (db : Db) (sessionId : String) (clientType : ClientType)
    (connectionId publicKey : String) : Db :=
  { db with sessions := db.sessions.map (fun s =>
      if s.sessionId = sessionId then
        match clientType with
        | .desktop =>
            { s with desktopConnectionId := some connectionId
                     desktopPublicKey := some publicKey }
        | .mobile =>
            { s with mobileConnectionId := some connectionId
                     mobilePublicKey := some publicKey }
      else s) }

/-- UpdateCommand removing one client slot of a session (db.ts
clearSessionClient). -/
def clearSessionClient (db : Db) (sessionId : String) (clientType : ClientType) : Db :=
  { db with sessions := db.sessions.map (fun s =>
      if s.sessionId = sessionId then
        match clientType with
        | .desktop =>
            { s with desktopConnectionId := none, desktopPublicKey := none }
        | .mobile =>
            { s with mobileConnectionId := none, mobilePublicKey := none }
      else s) }

/-- PutCommand on the messages table (db.ts queueMessage): the item is keyed
by sessionId and the envelope messageId, queuedAt is the current clock and
ttl is 24 hours from now in epoch seconds. -/
def queueMessage (db : Db) (sessionId : String) (envelope : MessageEnvelope)
    (now : Nat) : Db :=
  let item : QueuedMessage :=
    { sessionId := sessionId
      messageId := envelope.messageId
      envelope := envelope
      queuedAt := now
      ttl := now / 1000 + 24 * 60 * 60 }
  { db with messages :=
      (db.messages.filter (fun m =>
        ¬ (m.sessionId = sessionId ∧ m.messageId = envelope.messageId))) ++ [item] }

/-- Ascending order on the messages table sort key.  The table is keyed by
the pair of sessionId (partition) and messageId (sort), as every
DeleteCommand in db.ts uses exactly that Key, so a QueryCommand with
ScanIndexForward true returns items in ascending messageId order
(lexicographic over the characters, matching the byte order DynamoDB uses
on the ASCII UUID ids the system generates). -/
def msgLe (a b : QueuedMessage) : Prop :=
  a.messageId.data ≤ b.messageId.data

instance : DecidableRel msgLe := fun a b =>
  inferInstanceAs (Decidable (a.messageId.data ≤ b.messageId.data))

instance : IsTotal QueuedMessage msgLe :=
  ⟨fun a b => le_total a.messageId.data b.messageId.data⟩

instance : IsTrans QueuedMessage msgLe :=
  ⟨fun _ _ _ h₁ h₂ => le_trans h₁ h₂⟩

/-- QueryCommand on the messages table (db.ts getQueuedMessages): all items
of the session, in ascending order of the messageId sort key. -/
def getQueuedMessages (db : Db) (sessionId : String) : List QueuedMessage :=
  List.insertionSort msgLe (db.messages.filter (fun m => m.sessionId = sessionId))

/-- Ack deletion (db.ts deleteQueuedMessages): query the session queue, find
the index of the acked messageId, and if present delete every item of the
queue up to and including it; an absent id deletes nothing. -/
def deleteQueuedMessages (db : Db) (sessionId upToMessageId : String) : Db :=
  let messages := getQueuedMessages db sessionId
  match messages.findIdx? (fun m => m.messageId = upToMessageId) with
  | none => db
  | some index =>
      let toDelete := messages.take (index + 1)
      { db with messages := db.messages.filter (fun m =>
          ¬ toDelete.any (fun d =>
            d.sessionId = m.sessionId ∧ d.messageId = m.messageId)) }

/-- Queue purge (db.ts clearAllQueuedMessages): delete every queued message
of the session. -/
def clearAllQueuedMessages (db : Db) (sessionId : String) : Db :=
  { db with messages := db.messages.filter (fun m => m.sessionId ≠ sessionId) }

/-- Frame sent by the relay to a connection (websocket.ts sendToConnection
payloads, as produced by the handlers in the default-route module). -/
inductive ServerFrame where
  | sessionCreated (sessionId : String)
  | sessionJoined (sessionId : String) (peerPublicKey : Option String)
  | peerConnected (peerPublicKey : String) (peerType : ClientType)
  | peerDisconnected (peerType : ClientType)
  | queueStatus (queuedMessages : Nat) (oldestTimestamp : Option Nat)
  | envelope (e : MessageEnvelope)
  | ping (timestamp : Nat)
  | errorFrame (code : String) (message : String)
deriving DecidableEq, Repr

/-- Result of one handler run: the frames passed to sendToConnection, each
paired with its target connectionId and in send order, plus the new store. -/
structure HandlerResult where
  frames : List (String × ServerFrame)
  db : Db
deriving DecidableEq, Repr

/-- Tail of the join handler after the slot checks (the save, update,
confirm, notify and replay steps of handleJoin).  The session argument is
the snapshot fetched at the start of the handler: the source reads the peer
slot and peer public key from that snapshot, not from the updated store. -/
def handleJoinProceed (now : Nat) (connectionId sessionId : String)
    (clientType : ClientType) (publicKey : String) (session : Session)
    (pre : List (String × ServerFrame)) (db : Db) : HandlerResult :=
  let db₁ := saveConnection db
    { connectionId := connectionId
      sessionId := sessionId
      clientType := clientType
      publicKey := publicKey
      connectedAt := now }
  let db₂ := updateSessionClient db₁ sessionId clientType connectionId publicKey
  let peerPublicKey :=
    match clientType with
    | .desktop => session.mobilePublicKey
    | .mobile => session.desktopPublicKey
  let joined := pre ++ [(connectionId, .sessionJoined sessionId peerPublicKey)]
  let peerConnectionId :=
    match clientType with
    | .desktop => session.mobileConnectionId
    | .mobile => session.desktopConnectionId
  let notified :=
    if optTruthy peerConnectionId then
      joined ++ [(peerConnectionId.getD "", .peerConnected publicKey clientType)]
    else joined
  if clientType = .mobile then
    let queuedMessages := getQueuedMessages db₂ sessionId
    if queuedMessages.length > 0 then
      { frames := notified ++
          [(connectionId, .queueStatus queuedMessages.length
              ((queuedMessages.head?).map (fun m => m.queuedAt)))] ++
          queuedMessages.map (fun m => (connectionId, .envelope m.envelope))
        db := db₂ }
    else
      { frames := notified, db := db₂ }
  else
    { frames := notified, db := db₂ }

/-- Join handler (handleJoin in the default-route module).  The alive oracle
models whether a probe send to a stale connectionId raises GoneException
(false means gone); now models the clock. -/
def handleJoin (alive : String → Bool) (now : Nat) (connectionId sessionId : String)
    (clientType : ClientType) (publicKey : String) (db : Db) : HandlerResult :=
  match getSession db sessionId with
  | none =>
      { frames := [(connectionId,
          .errorFrame "SESSION_NOT_FOUND" "Session does not exist")]
        db := db }
  | some session =>
      let db₁ :=
        if clientType = .mobile ∧ optTruthy session.mobilePublicKey ∧
            session.mobilePublicKey ≠ some publicKey then
          clearAllQueuedMessages db sessionId
        else db
      let existingConnectionId :=
        match clientType with
        | .desktop => session.desktopConnectionId
        | .mobile => session.mobileConnectionId
      if optTruthy existingConnectionId then
        let existing := existingConnectionId.getD ""
        let pinged := [(existing, ServerFrame.ping now)]
        if alive existing then
          { frames := pinged ++ [(connectionId,
              .errorFrame "ALREADY_CONNECTED"
                "A client of this type is already connected to this session")]
            db := db₁ }
        else
          let db₂ := clearSessionClient db₁ sessionId clientType
          let db₃ := deleteConnection db₂ existing
          handleJoinProceed now connectionId sessionId clientType publicKey
            session pinged db₃
      else
        handleJoinProceed now connectionId sessionId clientType publicKey
          session [] db₁

/-- Queue-status handler (handleQueueStatus in the default-route module). -/
def handleQueueStatus (connectionId sessionId : String) (db : Db) :
    List (String × ServerFrame) :=
  let messages := getQueuedMessages db sessionId
  [(connectionId, .queueStatus messages.length
      ((messages.head?).map (fun m => m.queuedAt)))]

/-- Envelope-routing handler (handleEncryptedMessage in the default-route
module): forward to the peer slot, queue when the desktop sends to an absent
mobile, drop silently when the mobile sends to an absent desktop, and reply
NOT_JOINED when the connection has no record. -/
def handleEncryptedMessage (now : Nat) (connectionId : String)
    (envelope : MessageEnvelope) (db : Db) : HandlerResult :=
  match getConnection db connectionId with
  | none =>
      { frames := [(connectionId,
          .errorFrame "NOT_JOINED" "Must join a session first")]
        db := db }
  | some connection =>
      match getSession db connection.sessionId with
      | none => { frames := [], db := db }
      | some session =>
          let peerConnectionId :=
            match connection.clientType with
            | .desktop => session.mobileConnectionId
            | .mobile => session.desktopConnectionId
          if optTruthy peerConnectionId then
            { frames := [(peerConnectionId.getD "", .envelope envelope)]
              db := db }
          else
            match connection.clientType with
            | .desktop =>
                { frames := []
                  db := queueMessage db connection.sessionId envelope now }
            | .mobile => { frames := [], db := db }

section ConcreteInputs

/-- Sample envelope used by concrete witnesses and counterexamples. -/
def env0 : MessageEnvelope :=
  { version := 1, sessionId := "s", messageId := "m1", timestamp := 3,
    sender := .desktop, nonce := "n", encryptedPayload := "c" }

/-- Session whose 24-hour expiry has already passed at clock 100. -/
def sessExpired : Session :=
  { sessionId := "s", createdAt := 1, expiresAt := 5 }

/-- Store holding only the expired session. -/
def dbExpired : Db :=
  { connections := [], sessions := [sessExpired], messages := [] }

/-- Envelope with messageId b, queued first. -/
def envB : MessageEnvelope := { env0 with messageId := "b" }

/-- Envelope with messageId a, queued second. -/
def envA : MessageEnvelope := { env0 with messageId := "a" }

/-- Store where the envelope queued at time 1 has the lexicographically
larger messageId, so the messageId sort order disagrees with queuedAt. -/
def dbOrder : Db :=
  { connections := [], sessions := [],
    messages :=
      [ { sessionId := "s", messageId := "b", envelope := envB,
          queuedAt := 1, ttl := 90000 },
        { sessionId := "s", messageId := "a", envelope := envA,
          queuedAt := 2, ttl := 90000 } ] }

/-- Live session for the TTL replay scenario. -/
def sessLive : Session :=
  { sessionId := "s", createdAt := 1, expiresAt := 10 ^ 9 }

/-- Queued message whose ttl (epoch seconds) has long passed at the join
clock used below. -/
def qmExpired : QueuedMessage :=
  { sessionId := "s", messageId := "m1", envelope := env0,
    queuedAt := 10, ttl := 10 }

/-- Store holding the live session and the TTL-expired queued message. -/
def dbTtl : Db :=
  { connections := [], sessions := [sessLive], messages := [qmExpired] }

/-- Desktop connection record used by the routing witness. -/
def connD : Connection :=
  { connectionId := "c1", sessionId := "s", clientType := .desktop,
    publicKey := "pkD", connectedAt := 0 }

/-- Session with both slots filled, used by the routing witness. -/
def sessBoth : Session :=
  { sessionId := "s",
    desktopConnectionId := some "c1", desktopPublicKey := some "pkD",
    mobileConnectionId := some "c2", mobilePublicKey := some "pkM",
    createdAt := 0, expiresAt := 10 }

/-- Store used by the routing witness. -/
def dbRoute : Db :=
  { connections := [connD], sessions := [sessBoth], messages := [] }

end ConcreteInputs

/-- C2.  The claim fails on the code: handleJoin checks only that the
session record is still stored, never its expiresAt.  Here the session
expired at clock 5, the join happens at clock 100, and the relay answers
session_joined instead of SESSION_NOT_FOUND. -/
theorem join_succeeds_on_expired_session :
    getSession dbExpired "s" = some sessExpired ∧
    sessExpired.expiresAt < 100 ∧
    (handleJoin (fun _ => true) 100 "c1" "s" .mobile "pk" dbExpired).frames =
      [("c1", ServerFrame.sessionJoined "s" none)] := by
  decide

/-- C3.  The claim fails on the code: getQueuedMessages returns the session
queue in ascending messageId order (the table sort key), not ascending
queuedAt order.  With the envelope queued at time 1 carrying messageId b and
the one queued at time 2 carrying messageId a, the listing comes back with
queuedAt sequence 2, 1. -/
theorem listQueue_violates_queuedAt_order :
    (getQueuedMessages dbOrder "s").map (fun m => m.queuedAt) = [2, 1] ∧
    (getQueuedMessages dbOrder "s").map (fun m => m.messageId) = ["a", "b"] := by
  decide

/-- C8.  The claim fails on the code: neither getQueuedMessages nor the join
replay filters queued messages by their ttl, so an envelope whose 24-hour
TTL elapsed long ago but which is still stored is replayed to the joining
mobile client. -/
theorem expired_envelope_is_replayed :
    qmExpired.ttl < (2 * 10 ^ 8) / 1000 ∧
    (handleJoin (fun _ => true) (2 * 10 ^ 8) "c1" "s" .mobile "pk" dbTtl).frames =
      [("c1", ServerFrame.sessionJoined "s" none),
       ("c1", ServerFrame.queueStatus 1 (some 10)),
       ("c1", ServerFrame.envelope env0)] := by
  decide

/-- C5.  Envelope routing: a connection with no record gets a NOT_JOINED
error frame and the store is unchanged; a joined connection whose peer slot
is filled has the envelope forwarded unmodified to the peer and the store is
unchanged; a desktop sender with an empty mobile slot has the envelope
queued; a mobile sender with an empty desktop slot has the envelope dropped
with no frame and no state change. -/
theorem envelope_routing (now : Nat) (connectionId : String)
    (envelope : MessageEnvelope) (db : Db) :
    (getConnection db connectionId = none →
      handleEncryptedMessage now connectionId envelope db =
        ⟨[(connectionId, .errorFrame "NOT_JOINED" "Must join a session first")], db⟩) ∧
    (∀ connection session,
      getConnection db connectionId = some connection →
      getSession db connection.sessionId = some session →
      (∀ peer,
        (match connection.clientType with
          | .desktop => session.mobileConnectionId
          | .mobile => session.desktopConnectionId) = some peer →
        peer ≠ "" →
        handleEncryptedMessage now connectionId envelope db =
          ⟨[(peer, .envelope envelope)], db⟩) ∧
      (optTruthy (match connection.clientType with
          | .desktop => session.mobileConnectionId
          | .mobile => session.desktopConnectionId) = false →
        connection.clientType = .desktop →
        handleEncryptedMessage now connectionId envelope db =
          ⟨[], queueMessage db connection.sessionId envelope now⟩) ∧
      (optTruthy (match connection.clientType with
          | .desktop => session.mobileConnectionId
          | .mobile => session.desktopConnectionId) = false →
        connection.clientType = .mobile →
        handleEncryptedMessage now connectionId envelope db = ⟨[], db⟩)) := by
  refine ⟨?_, ?_⟩
  · intro h
    simp [handleEncryptedMessage, h]
  · intro connection session hc hsess
    refine ⟨?_, ?_, ?_⟩
    · intro peer hp hp0
      simp [handleEncryptedMessage, hc, hsess, hp, optTruthy, strTruthy, hp0]
    · intro hfalse hdesk
      rw [hdesk] at hfalse
      simp [handleEncryptedMessage, hc, hsess, hfalse, hdesk]
    · intro hfalse hmob
      rw [hmob] at hfalse
      simp [handleEncryptedMessage, hc, hsess, hfalse, hmob]

/-- Witness for envelope_routing: in the concrete store with both slots
filled, the envelope sent by the desktop connection is forwarded as-is to
the mobile connection and the store is unchanged. -/
theorem envelope_routing_witness :
    handleEncryptedMessage 7 "c1" env0 dbRoute =
      ⟨[("c2", ServerFrame.envelope env0)], dbRoute⟩ :=
  (((envelope_routing 7 "c1" env0 dbRoute).2 connD sessBoth
      (by decide) (by decide)).1) "c2" (by decide) (by decide)


theorem getQueuedMessages_eq_of_messages (db₁ db₂ : Db) (sid : String)
    (h : db₁.messages = db₂.messages) :
    getQueuedMessages db₁ sid = getQueuedMessages db₂ sid := by
  simp [getQueuedMessages, h]

theorem getQueuedMessages_clearAll (db : Db) (sid : String) :
    getQueuedMessages (clearAllQueuedMessages db sid) sid = [] := by
  have h : (clearAllQueuedMessages db sid).messages.filter
      (fun m => m.sessionId = sid) = [] := by
    rw [List.filter_eq_nil_iff]
    intro a ha
    simp only [clearAllQueuedMessages, List.mem_filter] at ha
    simp only [decide_eq_true_eq]
    intro hcontra
    rw [hcontra] at ha
    simp at ha
  simp [getQueuedMessages, h]

theorem handleJoinProceed_messages (now : Nat) (cid sid : String)
    (ct : ClientType) (pk : String) (session : Session)
    (pre : List (String × ServerFrame)) (db : Db) :
    (handleJoinProceed now cid sid ct pk session pre db).db.messages = db.messages := by
  simp only [handleJoinProceed]
  split <;> (try split) <;> rfl

theorem handleJoinProceed_frames_of_empty (now : Nat) (cid sid : String)
    (ct : ClientType) (pk : String) (session : Session)
    (pre : List (String × ServerFrame)) (db : Db)
    (hq : getQueuedMessages db sid = []) :
    (handleJoinProceed now cid sid ct pk session pre db).frames =
      (pre ++ [(cid, ServerFrame.sessionJoined sid
          (match ct with
            | .desktop => session.mobilePublicKey
            | .mobile => session.desktopPublicKey))]) ++
      (if optTruthy (match ct with
            | .desktop => session.mobileConnectionId
            | .mobile => session.desktopConnectionId) then
        [((match ct with
            | .desktop => session.mobileConnectionId
            | .mobile => session.desktopConnectionId).getD "",
          ServerFrame.peerConnected pk ct)]
      else []) := by
  have hq2 : getQueuedMessages
      (updateSessionClient (saveConnection db
        { connectionId := cid, sessionId := sid, clientType := ct,
          publicKey := pk, connectedAt := now }) sid ct cid pk) sid =
      getQueuedMessages db sid :=
    getQueuedMessages_eq_of_messages _ _ _ rfl
  simp only [handleJoinProceed, hq2, hq, List.length_nil, gt_iff_lt,
    Nat.lt_irrefl, if_false, ite_self]
  split <;> simp

theorem handleJoinProceed_no_envelope (now : Nat) (cid sid : String)
    (ct : ClientType) (pk : String) (session : Session)
    (pre : List (String × ServerFrame)) (db : Db)
    (hq : getQueuedMessages db sid = [])
    (hpre : ∀ f ∈ pre, ∀ e, f.2 ≠ ServerFrame.envelope e) :
    ∀ f ∈ (handleJoinProceed now cid sid ct pk session pre db).frames,
      ∀ e, f.2 ≠ ServerFrame.envelope e := by
  intro f hf e
  rw [handleJoinProceed_frames_of_empty now cid sid ct pk session pre db hq] at hf
  rcases List.mem_append.1 hf with h1 | h2
  · rcases List.mem_append.1 h1 with hp | hsj
    · exact hpre f hp e
    · rw [List.mem_singleton] at hsj
      subst hsj
      simp
  · split at h2
    · rw [List.mem_singleton] at h2
      subst h2
      simp
    · simp at h2

/-- C1.  Key-rotation purge: on a mobile join to a stored session whose
recorded mobile public key is present (nonempty) and differs from the key in
this join, the relay purges the whole session queue before any replay, so no
envelope frame is sent during the join, the post-state queue is empty, and a
subsequent queue_status reports zero queued messages. -/
theorem key_rotation_purge (alive : String → Bool) (now : Nat)
    (connectionId sessionId publicKey : String) (db : Db)
    (session : Session) (k : String)
    (hs : getSession db sessionId = some session)
    (hk : session.mobilePublicKey = some k)
    (hk0 : k ≠ "") (hne : k ≠ publicKey) :
    (∀ f ∈ (handleJoin alive now connectionId sessionId .mobile publicKey db).frames,
        ∀ e, f.2 ≠ ServerFrame.envelope e) ∧
    getQueuedMessages
      (handleJoin alive now connectionId sessionId .mobile publicKey db).db
      sessionId = [] ∧
    handleQueueStatus connectionId sessionId
      (handleJoin alive now connectionId sessionId .mobile publicKey db).db =
      [(connectionId, ServerFrame.queueStatus 0 none)] := by
  have hpurged : getQueuedMessages (clearAllQueuedMessages db sessionId) sessionId = [] :=
    getQueuedMessages_clearAll db sessionId
  have key : ∀ dbx : Db,
      getQueuedMessages dbx sessionId = [] →
      handleQueueStatus connectionId sessionId dbx =
        [(connectionId, ServerFrame.queueStatus 0 none)] := by
    intro dbx hx
    simp [handleQueueStatus, hx]
  simp only [handleJoin, hs]
  have hcond : (True ∧ optTruthy session.mobilePublicKey = true ∧
      session.mobilePublicKey ≠ some publicKey) := by
    refine ⟨trivial, ?_, ?_⟩
    · rw [hk]; simp [optTruthy, strTruthy, hk0]
    · rw [hk]; simp [hne]
  rw [if_pos hcond]
  by_cases hex : optTruthy session.mobileConnectionId = true
  · rw [if_pos hex]
    by_cases hal : alive (session.mobileConnectionId.getD "") = true
    · rw [if_pos hal]
      refine ⟨?_, hpurged, key _ hpurged⟩
      intro f hf e
      rcases List.mem_append.1 hf with h1 | h2
      · rw [List.mem_singleton] at h1
        subst h1
        simp
      · rw [List.mem_singleton] at h2
        subst h2
        simp
    · rw [if_neg hal]
      have hmsg : getQueuedMessages
          (deleteConnection
            (clearSessionClient (clearAllQueuedMessages db sessionId) sessionId
              ClientType.mobile)
            (session.mobileConnectionId.getD "")) sessionId = [] :=
        (getQueuedMessages_eq_of_messages _
          (clearAllQueuedMessages db sessionId) _ rfl).trans hpurged
      have hpost : getQueuedMessages
          (handleJoinProceed now connectionId sessionId ClientType.mobile publicKey
            session
            [(session.mobileConnectionId.getD "", ServerFrame.ping now)]
            (deleteConnection
              (clearSessionClient (clearAllQueuedMessages db sessionId) sessionId
                ClientType.mobile)
              (session.mobileConnectionId.getD ""))).db sessionId = [] :=
        (getQueuedMessages_eq_of_messages _
          (deleteConnection
            (clearSessionClient (clearAllQueuedMessages db sessionId) sessionId
              ClientType.mobile)
            (session.mobileConnectionId.getD ""))
          _ (handleJoinProceed_messages _ _ _ _ _ _ _ _)).trans hmsg
      refine ⟨?_, hpost, key _ hpost⟩
      refine handleJoinProceed_no_envelope _ _ _ _ _ _ _ _ hmsg ?_
      intro f hf e
      rw [List.mem_singleton] at hf
      subst hf
      simp
  · rw [if_neg hex]
    have hpost : getQueuedMessages
        (handleJoinProceed now connectionId sessionId ClientType.mobile publicKey
          session [] (clearAllQueuedMessages db sessionId)).db sessionId = [] :=
      (getQueuedMessages_eq_of_messages _
        (clearAllQueuedMessages db sessionId) _
        (handleJoinProceed_messages _ _ _ _ _ _ _ _)).trans hpurged
    refine ⟨?_, hpost, key _ hpost⟩
    refine handleJoinProceed_no_envelope _ _ _ _ _ _ _ _ hpurged ?_
    intro f hf e
    simp at hf

/-- Session with a recorded mobile public key, used by the rotation witness. -/
def sessRot : Session :=
  { sessionId := "s", mobileConnectionId := some "cOld",
    mobilePublicKey := some "old", createdAt := 0, expiresAt := 10 }

/-- Queued message present before the rotated join. -/
def qmRot : QueuedMessage :=
  { sessionId := "s", messageId := "m1", envelope := env0,
    queuedAt := 5, ttl := 90000 }

/-- Store for the rotation witness. -/
def dbRot : Db :=
  { connections := [], sessions := [sessRot], messages := [qmRot] }

/-- Witness for key_rotation_purge: a mobile joins with key new while the
stored key is old; the stale incumbent probe reports gone, the join
proceeds, nothing is replayed and the queue reports zero. -/
theorem key_rotation_purge_witness :
    (∀ f ∈ (handleJoin (fun _ => false) 50 "c2" "s" .mobile "new" dbRot).frames,
        ∀ e, f.2 ≠ ServerFrame.envelope e) ∧
    getQueuedMessages
      (handleJoin (fun _ => false) 50 "c2" "s" .mobile "new" dbRot).db "s" = [] ∧
    handleQueueStatus "c2" "s"
      (handleJoin (fun _ => false) 50 "c2" "s" .mobile "new" dbRot).db =
      [("c2", ServerFrame.queueStatus 0 none)] :=
  key_rotation_purge (fun _ => false) 50 "c2" "s" "new" dbRot sessRot "old"
    (by decide) (by decide) (by decide) (by decide)


theorem filter_orderedInsert {α : Type} (r : α → α → Prop) [DecidableRel r]
    [IsTotal α r] [IsTrans α r] (p : α → Bool) (q : α) :
    ∀ s : List α, s.Sorted r →
      (List.orderedInsert r q s).filter p =
        if p q then List.orderedInsert r q (s.filter p) else s.filter p
  | [], _ => by
      by_cases hq : p q <;> simp [List.orderedInsert, hq]
  | h :: t, hs => by
      have hst : t.Sorted r := hs.of_cons
      have hht : ∀ x ∈ t, r h x := List.rel_of_sorted_cons hs
      by_cases hr : r q h
      · rw [List.orderedInsert, if_pos hr]
        by_cases hq : p q
        · rw [if_pos hq]
          rw [List.filter_cons, if_pos (by simpa using hq)]
          cases hfil : (h :: t).filter p with
          | nil => simp [List.orderedInsert]
          | cons y ys =>
              have hy : y ∈ (h :: t).filter p := by rw [hfil]; exact List.mem_cons_self y ys
              have hy2 : y ∈ h :: t := List.mem_of_mem_filter hy
              have hqy : r q y := by
                rcases List.mem_cons.1 hy2 with rfl | hyt
                · exact hr
                · exact Trans.trans hr (hht y hyt)
              simp [List.orderedInsert, hqy]
        · rw [if_neg hq]
          rw [List.filter_cons, if_neg (by simpa using hq)]
      · rw [List.orderedInsert, if_neg hr]
        have IH := filter_orderedInsert r p q t hst
        by_cases hq : p q
        · rw [if_pos hq]
          by_cases hh : p h
          · rw [List.filter_cons, if_pos (by simpa using hh),
              List.filter_cons, if_pos (by simpa using hh), IH, if_pos hq]
            simp [List.orderedInsert, hr]
          · rw [List.filter_cons, if_neg (by simpa using hh),
              List.filter_cons, if_neg (by simpa using hh), IH, if_pos hq]
        · rw [if_neg hq]
          by_cases hh : p h
          · rw [List.filter_cons, if_pos (by simpa using hh),
              List.filter_cons, if_pos (by simpa using hh), IH, if_neg hq]
          · rw [List.filter_cons, if_neg (by simpa using hh),
              List.filter_cons, if_neg (by simpa using hh), IH, if_neg hq]

theorem insertionSort_filter {α : Type} (r : α → α → Prop) [DecidableRel r]
    [IsTotal α r] [IsTrans α r] (p : α → Bool) :
    ∀ l : List α,
      List.insertionSort r (l.filter p) = (List.insertionSort r l).filter p
  | [] => rfl
  | h :: t => by
      rw [List.insertionSort,
        filter_orderedInsert r p h (List.insertionSort r t)
          (List.sorted_insertionSort r t)]
      by_cases hh : p h
      · rw [if_pos hh, List.filter_cons, if_pos (by simpa using hh),
          List.insertionSort, insertionSort_filter r p t]
      · rw [if_neg hh, List.filter_cons, if_neg (by simpa using hh),
          insertionSort_filter r p t]

theorem filter_not_mem_map_take {α κ : Type} [DecidableEq κ] (key : α → κ) :
    ∀ (l : List α) (n : Nat), (l.map key).Nodup →
      l.filter (fun x => key x ∉ (l.take n).map key) = l.drop n
  | [], n, _ => by simp
  | h :: t, 0, _ => by
      simp
  | h :: t, n + 1, hn => by
      rw [List.take_succ_cons, List.map_cons]
      have hn1 : key h ∉ t.map key := (List.nodup_cons.1 hn).1
      have hn2 : (t.map key).Nodup := (List.nodup_cons.1 hn).2
      rw [List.filter_cons]
      rw [if_neg (by simp)]
      have hcongr : t.filter (fun x => key x ∉ key h :: (t.take n).map key) =
          t.filter (fun x => key x ∉ (t.take n).map key) := by
        apply List.filter_congr
        intro x hx
        have hxh : key x ≠ key h := by
          intro hcontra
          exact hn1 (hcontra ▸ List.mem_map_of_mem key hx)
        simp [List.mem_cons, hxh]
      rw [hcongr, filter_not_mem_map_take key t n hn2, List.drop_succ_cons]

/-- Key of an item of the messages table. -/
def msgKey (m : QueuedMessage) : String × String :=
  (m.sessionId, m.messageId)

theorem nodup_msgKey (db : Db) (sid : String)
    (hN : ((db.messages.filter (fun m => m.sessionId = sid)).map
        (fun m => m.messageId)).Nodup) :
    ((getQueuedMessages db sid).map msgKey).Nodup := by
  have hperm : (getQueuedMessages db sid).Perm
      (db.messages.filter (fun m => m.sessionId = sid)) :=
    List.perm_insertionSort msgLe _
  have h1 : ((db.messages.filter (fun m => m.sessionId = sid)).map
      (fun m => m.messageId)).Perm
      ((getQueuedMessages db sid).map (fun m => m.messageId)) :=
    (hperm.map _).symm
  have h2 : ((getQueuedMessages db sid).map (fun m => m.messageId)).Nodup :=
    h1.nodup hN
  have h3 : ((getQueuedMessages db sid).map msgKey).map Prod.snd =
      (getQueuedMessages db sid).map (fun m => m.messageId) := by
    rw [List.map_map]
    rfl
  exact List.Nodup.of_map Prod.snd (h3.symm ▸ h2)

theorem getQueuedMessages_delete_some (db : Db) (sid upTo : String) (i : Nat)
    (hN : ((db.messages.filter (fun m => m.sessionId = sid)).map
        (fun m => m.messageId)).Nodup)
    (hidx : (getQueuedMessages db sid).findIdx?
        (fun m => m.messageId = upTo) = some i) :
    getQueuedMessages (deleteQueuedMessages db sid upTo) sid =
      (getQueuedMessages db sid).drop (i + 1) := by
  have hkey := nodup_msgKey db sid hN
  simp only [deleteQueuedMessages, hidx]
  have step1 : (db.messages.filter (fun m =>
        decide (¬ ((getQueuedMessages db sid).take (i + 1)).any (fun d =>
          d.sessionId = m.sessionId ∧ d.messageId = m.messageId) = true))).filter
      (fun m => m.sessionId = sid) =
      (db.messages.filter (fun m => m.sessionId = sid)).filter (fun m =>
        decide (¬ ((getQueuedMessages db sid).take (i + 1)).any (fun d =>
          d.sessionId = m.sessionId ∧ d.messageId = m.messageId) = true)) :=
    List.filter_comm _ _ _
  show List.insertionSort msgLe _ = _
  rw [step1, insertionSort_filter msgLe]
  have hfold : List.insertionSort msgLe
      (db.messages.filter (fun m => m.sessionId = sid)) =
      getQueuedMessages db sid := rfl
  rw [hfold]
  rw [← filter_not_mem_map_take msgKey (getQueuedMessages db sid) (i + 1) hkey]
  apply List.filter_congr
  intro m _
  rw [decide_eq_decide, not_iff_not, List.any_eq_true]
  simp only [List.mem_map, decide_eq_true_eq, msgKey, Prod.mk.injEq]


theorem nodup_msgIds (db : Db) (sid : String)
    (hN : ((db.messages.filter (fun m => m.sessionId = sid)).map
        (fun m => m.messageId)).Nodup) :
    ((getQueuedMessages db sid).map (fun m => m.messageId)).Nodup := by
  have hperm : (getQueuedMessages db sid).Perm
      (db.messages.filter (fun m => m.sessionId = sid)) :=
    List.perm_insertionSort msgLe _
  exact ((hperm.map _).symm).nodup hN

theorem deleteQueuedMessages_absent (db : Db) (sid upTo : String)
    (h : ∀ m ∈ getQueuedMessages db sid, m.messageId ≠ upTo) :
    deleteQueuedMessages db sid upTo = db := by
  have hnone : (getQueuedMessages db sid).findIdx?
      (fun m => m.messageId = upTo) = none :=
    List.findIdx?_eq_none_iff.2 (fun m hm => by simp [h m hm])
  simp [deleteQueuedMessages, hnone]

theorem deleteQueuedMessages_idem (db : Db) (sid upTo : String)
    (hN : ((db.messages.filter (fun m => m.sessionId = sid)).map
        (fun m => m.messageId)).Nodup) :
    deleteQueuedMessages (deleteQueuedMessages db sid upTo) sid upTo =
      deleteQueuedMessages db sid upTo := by
  cases hidx : (getQueuedMessages db sid).findIdx?
      (fun m => m.messageId = upTo) with
  | none =>
      have h0 : deleteQueuedMessages db sid upTo = db := by
        simp [deleteQueuedMessages, hidx]
      rw [h0]
      exact h0
  | some i =>
      apply deleteQueuedMessages_absent
      intro m hm hup
      rw [getQueuedMessages_delete_some db sid upTo i hN hidx] at hm
      rcases List.findIdx?_eq_some_iff_findIdx_eq.1 hidx with ⟨hlen, hfi⟩
      have hpi : ((getQueuedMessages db sid).get ⟨i, hlen⟩).messageId = upTo := by
        subst hfi
        have hx := @List.findIdx_getElem _
          (fun m => decide (m.messageId = upTo))
          (getQueuedMessages db sid) hlen
        simp only [decide_eq_true_eq] at hx
        simpa using hx
      have hids := nodup_msgIds db sid hN
      rw [← List.take_append_drop (i + 1) (getQueuedMessages db sid),
        List.map_append] at hids
      have hdisj := (List.nodup_append.1 hids).2.2
      have hmem1 : upTo ∈ ((getQueuedMessages db sid).take (i + 1)).map
          (fun m => m.messageId) := by
        have hlt : i < ((getQueuedMessages db sid).take (i + 1)).length := by
          rw [List.length_take]
          exact lt_min (Nat.lt_succ_self i) hlen
        have hel : ((getQueuedMessages db sid).take (i + 1)).get ⟨i, hlt⟩ =
            (getQueuedMessages db sid).get ⟨i, hlen⟩ := by
          simp [@List.getElem_take _ (getQueuedMessages db sid) (i + 1) i hlt]
        have hmem : ((getQueuedMessages db sid).take (i + 1)).get ⟨i, hlt⟩ ∈
            ((getQueuedMessages db sid).take (i + 1)) := List.get_mem _ i hlt
        rw [← hpi, ← hel]
        exact List.mem_map_of_mem _ hmem
      have hmem2 : upTo ∈ ((getQueuedMessages db sid).drop (i + 1)).map
          (fun m => m.messageId) := by
        rw [← hup]
        exact List.mem_map_of_mem _ hm
      exact hdisj hmem1 hmem2

/-- C7.  Ack deletion is idempotent: when no queued envelope of the session
carries the acked messageId, deletion changes nothing; when the id sits at
position i of the queue order, deletion removes exactly the queue head up to
and including it, leaving the drop; and running the same deletion twice
equals running it once. -/
theorem ack_deletion_idempotent (db : Db) (sid upTo : String)
    (hN : ((db.messages.filter (fun m => m.sessionId = sid)).map
        (fun m => m.messageId)).Nodup) :
    ((∀ m ∈ getQueuedMessages db sid, m.messageId ≠ upTo) →
        deleteQueuedMessages db sid upTo = db) ∧
    (∀ i, (getQueuedMessages db sid).findIdx?
        (fun m => m.messageId = upTo) = some i →
        getQueuedMessages (deleteQueuedMessages db sid upTo) sid =
          (getQueuedMessages db sid).drop (i + 1)) ∧
    deleteQueuedMessages (deleteQueuedMessages db sid upTo) sid upTo =
      deleteQueuedMessages db sid upTo :=
  ⟨deleteQueuedMessages_absent db sid upTo,
   fun i h => getQueuedMessages_delete_some db sid upTo i hN h,
   deleteQueuedMessages_idem db sid upTo hN⟩

/-- Witness for ack_deletion_idempotent: acking messageId a in the two
element store deletes exactly the head of the messageId-ordered queue. -/
theorem ack_deletion_idempotent_witness :
    getQueuedMessages (deleteQueuedMessages dbOrder "s" "a") "s" =
      (getQueuedMessages dbOrder "s").drop 1 :=
  (ack_deletion_idempotent dbOrder "s" "a" (by decide)).2.1 0 (by decide)


/-- File record of an applied patch (protocol PatchedFile). -/
structure PatchedFile where
  path : String
  beforeHash : String
  afterHash : String
  reverseDiff : String
deriving DecidableEq, Repr

/-- Applied patch record (protocol AppliedPatch), tracked by the desktop
patch tracker for deterministic undo. -/
structure AppliedPatch where
  patchId : String
  timestamp : Nat
  files : List PatchedFile
  agentId : String
  prompt : String
deriving DecidableEq, Repr

/-- One file of an incoming diff_patch payload (path plus diff text). -/
structure DiffFile where
  path : String
  diff : String
deriving DecidableEq, Repr

/-- Filesystem under the working directory: association of relative path to
content; a missing entry is a missing file (fs.existsSync false). -/
abbrev FS := List (String × String)

/-- Read a file if it exists (fs.existsSync plus fs.readFileSync). -/
def fsRead (fs : FS) (p : String) : Option String :=
  (fs.find? (fun e => e.1 = p)).map (fun e => e.2)

/-- Modelled from the spec: SHA-256 content digest (createHash of the node
crypto library, external to the repository); modelled as an injective digest
function from content to hex-like string, which the tracker only ever
compares for equality. -/
def hashContent (content : String) : String :=
  "sha256:" ++ content

/-- Reverse diff generation (patch-tracker generateReverseDiff): split into
lines, swap + and - prefixes while leaving +++ and --- headers intact, and
join the lines back. -/
def generateReverseDiff (diff : String) : String :=
  String.intercalate "\n"
    ((diff.splitOn "\n").map (fun line =>
      if line.startsWith "+" ∧ ¬ line.startsWith "+++" then
        "-" ++ (line.drop 1)
      else if line.startsWith "-" ∧ ¬ line.startsWith "---" then
        "+" ++ (line.drop 1)
      else line))

/-- Record built by the prepare pass for one incoming diff_patch: per file
the current content hash (empty when the file is absent), an empty afterHash
to be filled by finalize, and the reverse diff. -/
def preparedPatch (workFs : FS) (diffFiles : List DiffFile)
    (patchId : String) (timestamp : Nat) (prompt agentId : String) :
    AppliedPatch :=
  { patchId := patchId
    timestamp := timestamp
    files := diffFiles.map (fun f =>
      { path := f.path
        beforeHash :=
          match fsRead workFs f.path with
          | some content => hashContent content
          | none => ""
        afterHash := ""
        reverseDiff := generateReverseDiff f.diff : PatchedFile })
    agentId := agentId
    prompt := prompt }

/-- Prepare pass (patch-tracker prepareForPatch): capture each file before
hash, build the AppliedPatch with empty afterHash and the reverse diff, push
it to the front of the history (unshift, newest first), and trim the history
to maxPatches = 50 (slice 0 50, evicting the oldest). -/
def prepareForPatch (workFs : FS) (diffFiles : List DiffFile)
    (patchId : String) (timestamp : Nat) (prompt agentId : String)
    (appliedPatches : List AppliedPatch) : List AppliedPatch :=
  let l := preparedPatch workFs diffFiles patchId timestamp prompt agentId ::
    appliedPatches
  if l.length > 50 then l.take 50 else l

/-- Finalize pass (patch-tracker finalizePatch): find the patch and record
the post-apply hash of every tracked file that exists on disk; files absent
on disk keep their previous afterHash. -/
def finalizePatch (workFs : FS) (patchId : String)
    (appliedPatches : List AppliedPatch) :
    Option AppliedPatch × List AppliedPatch :=
  match appliedPatches.find? (fun p => p.patchId = patchId) with
  | none => (none, appliedPatches)
  | some _ =>
      let updated := appliedPatches.map (fun p =>
        if p.patchId = patchId then
          { p with files := p.files.map (fun f =>
              match fsRead workFs f.path with
              | some content => { f with afterHash := hashContent content }
              | none => f) }
        else p)
      (updated.find? (fun p => p.patchId = patchId), updated)

/-- Result record of an undo (patch-tracker UndoResult). -/
structure UndoResult where
  success : Bool
  error : Option String
  revertedFiles : List String
deriving DecidableEq, Repr

/-- Pre-revert verification of one tracked file (the first loop of
undoPatch): a file that exists is rejected when a nonempty recorded
afterHash differs from its current hash; a missing file is rejected when a
nonempty afterHash says it should exist.  JavaScript truthiness makes both
checks vacuous when afterHash is the empty string. -/
def verifyFileError (fs : FS) (f : PatchedFile) : Option String :=
  match fsRead fs f.path with
  | some content =>
      if strTruthy f.afterHash ∧ hashContent content ≠ f.afterHash then
        some ("File " ++ f.path ++ " has been modified since patch was applied")
      else none
  | none =>
      if strTruthy f.afterHash then
        some ("File " ++ f.path ++ " no longer exists")
      else none

/-- First verification error over the tracked files, in file order. -/
def firstVerifyError (fs : FS) : List PatchedFile → Option String
  | [] => none
  | f :: rest =>
      match verifyFileError fs f with
      | some e => some e
      | none => firstVerifyError fs rest

/-- Undo (patch-tracker undoPatch) as a state transition on the history and
the filesystem.  The reverse-diff application (applyReverseDiff: git apply
with the manualRevert fallback; every internal failure of the git path is
caught and routed to the fallback, which completes without error) is a
parameter applyRD transforming the filesystem, so the theorems below hold
for every applier, covering both backends.  Verification runs before any
revert; reverts run in reverse file order, skipping files with an empty
reverse diff; on success the record is dropped from the history. -/
def undoPatch (applyRD : String → String → FS → FS) (patchId : String)
    (appliedPatches : List AppliedPatch) (fs : FS) :
    UndoResult × List AppliedPatch × FS :=
  match appliedPatches.find? (fun p => p.patchId = patchId) with
  | none =>
      ({ success := false, error := some "Patch not found", revertedFiles := [] },
       appliedPatches, fs)
  | some patch =>
      match firstVerifyError fs patch.files with
      | some e =>
          ({ success := false, error := some e, revertedFiles := [] },
           appliedPatches, fs)
      | none =>
          let step := patch.files.reverse.foldl
            (fun (acc : FS × List String) f =>
              if strTruthy f.reverseDiff then
                (applyRD f.path f.reverseDiff acc.1, acc.2 ++ [f.path])
              else acc)
            (fs, [])
          ({ success := true, error := none, revertedFiles := step.2 },
           appliedPatches.filter (fun p => p.patchId ≠ patchId),
           step.1)

/-- One operation against the patch tracker. -/
inductive TrackerOp where
  | prepare (diffFiles : List DiffFile) (patchId : String) (timestamp : Nat)
      (prompt agentId : String)
  | finalize (patchId : String)
  | undo (patchId : String)
deriving DecidableEq, Repr

/-- Single tracker step on the pair of history and filesystem state. -/
def trackerStep (applyRD : String → String → FS → FS)
    (st : List AppliedPatch × FS) : TrackerOp → List AppliedPatch × FS
  | .prepare df pid ts pr ag =>
      (prepareForPatch st.2 df pid ts pr ag st.1, st.2)
  | .finalize pid => ((finalizePatch st.2 pid st.1).2, st.2)
  | .undo pid =>
      let r := undoPatch applyRD pid st.1 st.2
      (r.2.1, r.2.2)

/-- Run a sequence of tracker operations from the empty history. -/
def runTracker (applyRD : String → String → FS → FS)
    (ops : List TrackerOp) (fs₀ : FS) : List AppliedPatch × FS :=
  ops.foldl (trackerStep applyRD) ([], fs₀)


theorem prepareForPatch_eq_take (workFs : FS) (df : List DiffFile)
    (pid : String) (ts : Nat) (pr ag : String) (st : List AppliedPatch) :
    prepareForPatch workFs df pid ts pr ag st =
      (preparedPatch workFs df pid ts pr ag :: st).take 50 := by
  simp only [prepareForPatch]
  split
  · rfl
  · rename_i h
    exact (List.take_of_length_le (Nat.le_of_not_lt h)).symm

theorem length_finalizePatch (workFs : FS) (pid : String)
    (st : List AppliedPatch) :
    ((finalizePatch workFs pid st).2).length = st.length := by
  simp only [finalizePatch]
  split
  · rfl
  · simp

theorem length_undoPatch_le (applyRD : String → String → FS → FS)
    (pid : String) (st : List AppliedPatch) (fs : FS) :
    ((undoPatch applyRD pid st fs).2.1).length ≤ st.length := by
  simp only [undoPatch]
  split
  · exact le_refl _
  · split
    · exact le_refl _
    · exact List.length_filter_le _ _

theorem runTracker_bounded_aux (applyRD : String → String → FS → FS) :
    ∀ (ops : List TrackerOp) (st : List AppliedPatch × FS),
      st.1.length ≤ 50 →
      ((ops.foldl (trackerStep applyRD) st).1).length ≤ 50
  | [], _, h => h
  | op :: rest, st, h => by
      rw [List.foldl_cons]
      apply runTracker_bounded_aux applyRD rest
      cases op with
      | prepare df pid ts pr ag =>
          show (prepareForPatch st.2 df pid ts pr ag st.1).length ≤ 50
          rw [prepareForPatch_eq_take]
          simp [List.length_take]
      | finalize pid =>
          show ((finalizePatch st.2 pid st.1).2).length ≤ 50
          rw [length_finalizePatch]
          exact h
      | undo pid =>
          exact le_trans (length_undoPatch_le applyRD pid st.1 st.2) h

/-- C9.  The applied-patch history is bounded by 50 and newest first: after
any sequence of prepare, finalize and undo operations from the empty
history the length is at most 50; every prepare pass produces exactly the
new record consed onto the old history and trimmed to 50 entries (evicting
the oldest on overflow), so the new record is always the head. -/
theorem patch_history_bounded (applyRD : String → String → FS → FS) :
    (∀ (ops : List TrackerOp) (fs₀ : FS),
      ((runTracker applyRD ops fs₀).1).length ≤ 50) ∧
    (∀ (workFs : FS) (df : List DiffFile) (pid : String) (ts : Nat)
        (pr ag : String) (st : List AppliedPatch),
      prepareForPatch workFs df pid ts pr ag st =
        (preparedPatch workFs df pid ts pr ag :: st).take 50) ∧
    (∀ (workFs : FS) (df : List DiffFile) (pid : String) (ts : Nat)
        (pr ag : String) (st : List AppliedPatch),
      (prepareForPatch workFs df pid ts pr ag st).head? =
        some (preparedPatch workFs df pid ts pr ag)) := by
  refine ⟨?_, prepareForPatch_eq_take, ?_⟩
  · intro ops fs₀
    exact runTracker_bounded_aux applyRD ops ([], fs₀) (by simp)
  · intro workFs df pid ts pr ag st
    rw [prepareForPatch_eq_take]
    rfl

/-- C6.  Every failing undo leaves the state untouched: when undoPatch
reports failure (unknown patch id, a drifted file, or a missing file that
should exist), the filesystem and the history are unchanged, no file was
reverted, and a structured error reason is present. -/
theorem undo_failure_fs_unchanged (applyRD : String → String → FS → FS)
    (patchId : String) (st : List AppliedPatch) (fs : FS)
    (h : (undoPatch applyRD patchId st fs).1.success = false) :
    (undoPatch applyRD patchId st fs).2.2 = fs ∧
    (undoPatch applyRD patchId st fs).2.1 = st ∧
    (undoPatch applyRD patchId st fs).1.revertedFiles = [] ∧
    (undoPatch applyRD patchId st fs).1.error.isSome = true := by
  revert h
  simp only [undoPatch]
  split
  · intro _
    simp
  · split
    · intro _
      simp
    · intro h
      simp at h

/-- Witness for undo_failure_fs_unchanged: undoing an unknown patch id on an
empty history fails and changes nothing. -/
theorem undo_failure_fs_unchanged_witness :
    (undoPatch (fun _ _ f => f) "missing" [] []).2.2 = ([] : FS) ∧
    (undoPatch (fun _ _ f => f) "missing" [] []).2.1 = ([] : List AppliedPatch) ∧
    (undoPatch (fun _ _ f => f) "missing" [] []).1.revertedFiles = [] ∧
    (undoPatch (fun _ _ f => f) "missing" [] []).1.error.isSome = true :=
  undo_failure_fs_unchanged (fun _ _ f => f) "missing" [] [] (by decide)

theorem firstVerifyError_none_of_empty (fs : FS) :
    ∀ files : List PatchedFile,
      (∀ f ∈ files, f.afterHash = "") → firstVerifyError fs files = none
  | [], _ => rfl
  | f :: rest, h => by
      have hf : f.afterHash = "" := h f (List.mem_cons_self f rest)
      have hv : verifyFileError fs f = none := by
        simp only [verifyFileError]
        cases fsRead fs f.path with
        | none => simp [strTruthy, hf]
        | some content => simp [strTruthy, hf]
      simp only [firstVerifyError, hv]
      exact firstVerifyError_none_of_empty fs rest
        (fun g hg => h g (List.mem_cons_of_mem f hg))

theorem revert_foldl_acc (applyRD : String → String → FS → FS) :
    ∀ (l : List PatchedFile) (fs : FS) (acc : List String),
      (l.foldl
        (fun (a : FS × List String) f =>
          if strTruthy f.reverseDiff then
            (applyRD f.path f.reverseDiff a.1, a.2 ++ [f.path])
          else a)
        (fs, acc)).2 =
      acc ++ (l.filter (fun f => strTruthy f.reverseDiff)).map (fun f => f.path)
  | [], fs, acc => by simp
  | f :: rest, fs, acc => by
      rw [List.foldl_cons, List.filter_cons]
      by_cases hf : strTruthy f.reverseDiff
      · rw [if_pos hf, if_pos (by simpa using hf)]
        rw [revert_foldl_acc applyRD rest _ (acc ++ [f.path])]
        simp
      · rw [if_neg hf, if_neg (by simpa using hf)]
        exact revert_foldl_acc applyRD rest fs acc

/-- C10.  A tracked file whose recorded afterHash is the empty string passes
the pre-revert verification vacuously under every filesystem; consequently,
for a patch all of whose files carry an empty afterHash, undo proceeds for
every filesystem state, succeeds, and applies each nonempty reverse diff
(reverse file order), regardless of current content or existence. -/
theorem empty_afterHash_undo_proceeds (applyRD : String → String → FS → FS)
    (patchId : String) (st : List AppliedPatch) (fs : FS)
    (patch : AppliedPatch)
    (hfind : st.find? (fun p => p.patchId = patchId) = some patch)
    (hall : ∀ f ∈ patch.files, f.afterHash = "") :
    (∀ f ∈ patch.files, ∀ fs₂ : FS, verifyFileError fs₂ f = none) ∧
    (undoPatch applyRD patchId st fs).1.success = true ∧
    (undoPatch applyRD patchId st fs).1.revertedFiles =
      (patch.files.reverse.filter (fun f => strTruthy f.reverseDiff)).map
        (fun f => f.path) := by
  refine ⟨?_, ?_⟩
  · intro f hf fs₂
    have hf2 : f.afterHash = "" := hall f hf
    simp only [verifyFileError]
    cases fsRead fs₂ f.path with
    | none => simp [strTruthy, hf2]
    | some content => simp [strTruthy, hf2]
  · have hver : firstVerifyError fs patch.files = none :=
      firstVerifyError_none_of_empty fs patch.files hall
    simp only [undoPatch, hfind, hver]
    refine ⟨trivial, ?_⟩
    exact revert_foldl_acc applyRD patch.files.reverse fs []

/-- File record with empty afterHash for the C10 witness. -/
def pf10 : PatchedFile :=
  { path := "foo.txt", beforeHash := "sha256:old", afterHash := "",
    reverseDiff := "rd" }

/-- Patch record for the C10 witness. -/
def patch10 : AppliedPatch :=
  { patchId := "p1", timestamp := 0, files := [pf10], agentId := "claude",
    prompt := "x" }

/-- Witness for empty_afterHash_undo_proceeds: the single tracked file has
drifted on disk, yet undo proceeds because afterHash is empty, succeeds and
reports the file as reverted. -/
theorem empty_afterHash_undo_proceeds_witness :
    (∀ f ∈ patch10.files, ∀ fs₂ : FS, verifyFileError fs₂ f = none) ∧
    (undoPatch (fun _ _ f => f) "p1" [patch10]
      [("foo.txt", "drifted")]).1.success = true ∧
    (undoPatch (fun _ _ f => f) "p1" [patch10]
      [("foo.txt", "drifted")]).1.revertedFiles =
      (patch10.files.reverse.filter (fun f => strTruthy f.reverseDiff)).map
        (fun f => f.path) :=
  empty_afterHash_undo_proceeds (fun _ _ f => f) "p1" [patch10]
    [("foo.txt", "drifted")] patch10 (by decide) (by decide)


/-- Injective encoding of a byte list into a natural number, used by the
ideal authentication tag below. -/
def listCode : List Nat → Nat
  | [] => 0
  | b :: t => Nat.pair b (listCode t) + 1

theorem listCode_inj : ∀ {l₁ l₂ : List Nat}, listCode l₁ = listCode l₂ → l₁ = l₂
  | [], [], _ => rfl
  | [], b :: t, h => by simp [listCode] at h
  | b :: t, [], h => by simp [listCode] at h
  | a :: s, b :: t, h => by
      simp only [listCode, Nat.add_right_cancel_iff] at h
      rcases Nat.pair_eq_pair.1 h with ⟨h₁, h₂⟩
      rw [h₁, listCode_inj h₂]

/-- Modelled from the spec: the curve25519 field prime of the external
tweetnacl library (the crypto primitive is not part of this repository). -/
def p25519 : Nat := 2 ^ 255 - 19

/-- Modelled from the spec: public key derivation of generateKeypair
(scalar multiplication of the curve base point by the secret scalar),
modelled as modular exponentiation of the base over the field prime, which
has the commutation property the X25519 agreement relies on. -/
def pubOf (sk : Nat) : Nat :=
  9 ^ sk % p25519

/-- Modelled from the spec: nacl.box.before, the precomputed X25519 shared
secret of a peer public key and an own secret key. -/
def boxBefore (pk sk : Nat) : Nat :=
  pk ^ sk % p25519

theorem boxBefore_comm (a b : Nat) :
    boxBefore (pubOf a) b = boxBefore (pubOf b) a := by
  simp only [boxBefore, pubOf]
  rw [← Nat.pow_mod, ← Nat.pow_mod, ← pow_mul, ← pow_mul, Nat.mul_comm]

/-- Modelled from the spec: one keystream byte of the XSalsa20 stream for a
shared key, nonce and position; the embedding only relies on the stream
being a deterministic function of these three. -/
def ksByte (k : Nat) (n : List Nat) (i : Nat) : Nat :=
  Nat.pair k (Nat.pair (listCode n) i) % 256

/-- Stream masking of a byte list starting at position i (XSalsa20 xor). -/
def maskBytes (k : Nat) (n : List Nat) : Nat → List Nat → List Nat
  | _, [] => []
  | i, b :: t => (b ^^^ ksByte k n i) :: maskBytes k n (i + 1) t

theorem maskBytes_involutive (k : Nat) (n : List Nat) :
    ∀ (i : Nat) (m : List Nat), maskBytes k n i (maskBytes k n i m) = m
  | _, [] => rfl
  | i, b :: t => by
      simp only [maskBytes, maskBytes_involutive k n (i + 1) t]
      rw [Nat.xor_assoc, Nat.xor_self, Nat.xor_zero]

/-- Modelled from the spec: the Poly1305 one-time authentication tag,
modelled as an ideal message authentication code: a value that matches only
for the exact keyed nonce and ciphertext body (the spec asserts that any
tampering is rejected). -/
def macTag (k : Nat) (n body : List Nat) : Nat :=
  Nat.pair k (Nat.pair (listCode n) (listCode body))

theorem macTag_inj {k₁ k₂ : Nat} {n₁ n₂ b₁ b₂ : List Nat}
    (h : macTag k₁ n₁ b₁ = macTag k₂ n₂ b₂) : k₁ = k₂ ∧ n₁ = n₂ ∧ b₁ = b₂ := by
  simp only [macTag] at h
  rcases Nat.pair_eq_pair.1 h with ⟨h₁, h₂⟩
  rcases Nat.pair_eq_pair.1 h₂ with ⟨h₃, h₄⟩
  exact ⟨h₁, listCode_inj h₃, listCode_inj h₄⟩

/-- Sealed box: the masked body and the authentication tag.  The wire form
concatenates tag and body into one base64 ciphertext string; the embedding
keeps the two components addressable. -/
structure BoxCiphertext where
  body : List Nat
  tag : Nat
deriving DecidableEq, Repr

/-- Modelled from the spec: nacl.box.after, authenticated encryption under
the precomputed shared key (argument order follows the source call
nacl.box.after(plaintext, nonce, sharedKey)). -/
def boxAfter (plaintext n : List Nat) (k : Nat) : BoxCiphertext :=
  let body := maskBytes k n 0 plaintext
  { body := body, tag := macTag k n body }

/-- Modelled from the spec: nacl.box.open.after; returns none unless the tag
authenticates the exact nonce and body under the shared key. -/
def boxOpenAfter (c : BoxCiphertext) (n : List Nat) (k : Nat) :
    Option (List Nat) :=
  if c.tag = macTag k n c.body then some (maskBytes k n 0 c.body) else none

/-- End-to-end crypto instance (e2e.ts E2ECrypto): holds the shared key
precomputed by nacl.box.before in the constructor.  Base64 decoding of the
string key arguments is the identity on the underlying bytes and is left to
the transport. -/
structure E2ECrypto where
  sharedKey : Nat
deriving DecidableEq, Repr

/-- Constructor of E2ECrypto: derive the shared secret from the own secret
key and the peer public key. -/
def mkE2ECrypto (mySecretKey peerPublicKey : Nat) : E2ECrypto :=
  { sharedKey := boxBefore peerPublicKey mySecretKey }

/-- Encrypted message (e2e.ts EncryptedMessage): nonce and ciphertext; the
base64 string encoding of each is a transport bijection and omitted. -/
structure EncryptedMessage where
  nonce : List Nat
  ciphertext : BoxCiphertext
deriving DecidableEq, Repr

/-- Encryption (e2e.ts E2ECrypto.encrypt): seal the plaintext under the
precomputed shared key with the given fresh 24-byte nonce (the source draws
the nonce from the CSPRNG; the embedding takes it as an argument). -/
def encrypt (e : E2ECrypto) (nonce plaintext : List Nat) : EncryptedMessage :=
  { nonce := nonce, ciphertext := boxAfter plaintext nonce e.sharedKey }

/-- Decryption to bytes (e2e.ts E2ECrypto.decryptBytes): open the box and
fail with the single authentication error when it rejects. -/
def decryptBytes (e : E2ECrypto) (enc : EncryptedMessage) :
    Except String (List Nat) :=
  match boxOpenAfter enc.ciphertext enc.nonce e.sharedKey with
  | some plaintext => .ok plaintext
  | none => .error "Decryption failed: invalid ciphertext or tampered message"

/-- Flip of a single bit: bit i of a byte list changes byte i / 8 at bit
position i % 8. -/
def flipBit (l : List Nat) (i : Nat) : List Nat :=
  l.set (i / 8) ((l.getD (i / 8) 0) ^^^ (1 <<< (i % 8)))

theorem xor_ne_of_ne_zero {b s : Nat} (hs : s ≠ 0) : b ^^^ s ≠ b := by
  intro h
  have h2 : b ^^^ (b ^^^ s) = b ^^^ b := by rw [h]
  rw [← Nat.xor_assoc, Nat.xor_self, Nat.zero_xor] at h2
  exact hs h2

theorem flipBit_ne (l : List Nat) (i : Nat) (h : i < 8 * l.length) :
    flipBit l i ≠ l := by
  intro heq
  have hj : i / 8 < l.length := by
    rw [Nat.div_lt_iff_lt_mul (by norm_num)]
    rw [Nat.mul_comm] at h
    exact h
  have hg : (flipBit l i)[i / 8]? =
      some ((l.getD (i / 8) 0) ^^^ (1 <<< (i % 8))) :=
    List.getElem?_set_self hj
  rw [heq, List.getElem?_eq_getElem hj, Option.some_inj,
    List.getD_eq_getElem l 0 hj] at hg
  have hnz : (1 <<< (i % 8)) ≠ 0 := by
    rw [Nat.one_shiftLeft]
    exact Nat.pos_iff_ne_zero.1 (Nat.two_pow_pos _)
  exact xor_ne_of_ne_zero hnz hg.symm


/-- C4.  Box roundtrip and tamper rejection: for every pair of keypairs and
every plaintext, decrypting the encryption made under the precomputed shared
secret returns exactly the plaintext; and flipping any single bit of the
nonce, of the ciphertext body, or of the authentication tag makes decryption
fail with the single authentication error, never partial plaintext. -/
theorem box_roundtrip_and_tamper (skA skB : Nat) (nonce m : List Nat) :
    decryptBytes (mkE2ECrypto skB (pubOf skA))
      (encrypt (mkE2ECrypto skA (pubOf skB)) nonce m) = .ok m ∧
    (∀ i, i < 8 * nonce.length →
      decryptBytes (mkE2ECrypto skB (pubOf skA))
        { nonce := flipBit nonce i
          ciphertext := (encrypt (mkE2ECrypto skA (pubOf skB)) nonce m).ciphertext } =
        .error "Decryption failed: invalid ciphertext or tampered message") ∧
    (∀ i, i < 8 * (encrypt (mkE2ECrypto skA (pubOf skB)) nonce m).ciphertext.body.length →
      decryptBytes (mkE2ECrypto skB (pubOf skA))
        { nonce := nonce
          ciphertext :=
            { body := flipBit
                (encrypt (mkE2ECrypto skA (pubOf skB)) nonce m).ciphertext.body i
              tag := (encrypt (mkE2ECrypto skA (pubOf skB)) nonce m).ciphertext.tag } } =
        .error "Decryption failed: invalid ciphertext or tampered message") ∧
    (∀ i, decryptBytes (mkE2ECrypto skB (pubOf skA))
        { nonce := nonce
          ciphertext :=
            { body := (encrypt (mkE2ECrypto skA (pubOf skB)) nonce m).ciphertext.body
              tag := (encrypt (mkE2ECrypto skA (pubOf skB)) nonce m).ciphertext.tag ^^^
                (1 <<< i) } } =
        .error "Decryption failed: invalid ciphertext or tampered message") := by
  have hinst : mkE2ECrypto skB (pubOf skA) = mkE2ECrypto skA (pubOf skB) := by
    simp only [mkE2ECrypto, E2ECrypto.mk.injEq]
    exact boxBefore_comm skA skB
  rw [hinst]
  refine ⟨?_, ?_, ?_, ?_⟩
  · simp only [decryptBytes, encrypt, boxAfter, boxOpenAfter, if_pos rfl]
    rw [maskBytes_involutive]
    simp
  · intro i hi
    have hne : flipBit nonce i ≠ nonce := flipBit_ne nonce i hi
    simp only [decryptBytes, encrypt, boxAfter, boxOpenAfter]
    rw [if_neg]
    intro hcontra
    exact hne ((macTag_inj hcontra).2.1).symm
  · intro i hi
    have hne : flipBit
        (encrypt (mkE2ECrypto skA (pubOf skB)) nonce m).ciphertext.body i ≠
        (encrypt (mkE2ECrypto skA (pubOf skB)) nonce m).ciphertext.body :=
      flipBit_ne _ i hi
    simp only [decryptBytes, encrypt, boxAfter, boxOpenAfter] at hne ⊢
    rw [if_neg]
    intro hcontra
    exact hne ((macTag_inj hcontra).2.2).symm
  · intro i
    have hnz : (1 <<< i) ≠ 0 := by
      rw [Nat.one_shiftLeft]
      exact Nat.pos_iff_ne_zero.1 (Nat.two_pow_pos _)
    simp only [decryptBytes, encrypt, boxAfter, boxOpenAfter]
    rw [if_neg]
    exact xor_ne_of_ne_zero hnz

/-- Witness for box_roundtrip_and_tamper: concrete keys, nonce and
plaintext; flipping the first nonce bit is rejected while the untampered
message decrypts to the plaintext. -/
theorem box_roundtrip_and_tamper_witness :
    decryptBytes (mkE2ECrypto 5 (pubOf 3))
      (encrypt (mkE2ECrypto 3 (pubOf 5)) [1, 2] [7, 8, 9]) = .ok [7, 8, 9] ∧
    decryptBytes (mkE2ECrypto 5 (pubOf 3))
      { nonce := flipBit [1, 2] 0
        ciphertext := (encrypt (mkE2ECrypto 3 (pubOf 5)) [1, 2] [7, 8, 9]).ciphertext } =
      .error "Decryption failed: invalid ciphertext or tampered message" :=
  ⟨(box_roundtrip_and_tamper 3 5 [1, 2] [7, 8, 9]).1,
   (box_roundtrip_and_tamper 3 5 [1, 2] [7, 8, 9]).2.1 0 (by decide)⟩

end DoomCode
